import Mathlib

/-!
# Verification of the dynix note-search TUI (src/main.py)

This file gives a shallow embedding of the search and navigation core of
the `ObsidianTUI` program and proves properties of it.  Python strings are
modelled as `List Char`; Python's `re` patterns used by the program are
implemented directly with the backtracking semantics the patterns have
(leftmost match, greedy or lazy quantifiers as written).  Machine ints in
the navigation state are modelled as `Int`, exactly as Python's unbounded
ints behave.
-/

namespace Dynix

/-- Python strings, modelled as lists of characters. -/
abbrev Str := List Char

/-- Python's `\s` / `str.strip()` whitespace over the ASCII range:
space, tab, newline, carriage return, vertical tab (11), form feed (12). -/
def isPyWs (c : Char) : Bool :=
  c = ' ' || c = '\t' || c = '\n' || c = '\r' || c = Char.ofNat 11 || c = Char.ofNat 12

/-- Python's `\w` word character over the ASCII range: alphanumeric or underscore. -/
def isWordChar (c : Char) : Bool :=
  c.isAlphanum || c = '_'

/-- `str.lower()` (per-character, ASCII range). -/
def pyLower (s : Str) : Str := s.map Char.toLower

/-- Strip characters satisfying `p` from both ends (Python `str.strip(chars)`). -/
def pyStripBy (p : Char → Bool) (s : Str) : Str :=
  ((s.dropWhile p).reverse.dropWhile p).reverse

/-- Python `str.strip()` (no argument: strip whitespace from both ends). -/
def pyStrip (s : Str) : Str := pyStripBy isPyWs s

/-- The quote characters stripped by `.strip('"\'')` in the source:
double quote (code 34) and single quote (code 39). -/
def quoteChars : List Char := [Char.ofNat 34, Char.ofNat 39]

/-- Python `t.strip('"\'')`. -/
def pyStripQuotes (s : Str) : Str := pyStripBy (fun c => c ∈ quoteChars) s

/-- Python's substring test `sub in s`. -/
def pyIn (sub : Str) : Str → Bool
  | [] => sub.isEmpty
  | c :: t => List.isPrefixOf sub (c :: t) || pyIn sub t

/-- Python `s.split(sep)` for a one-character separator: splits at every
occurrence, keeping empty pieces. -/
def pySplit (sep : Char) : Str → List Str
  | [] => [[]]
  | c :: rest =>
    match pySplit sep rest with
    | [] => [[]]
    | h :: t => if c = sep then [] :: h :: t else (c :: h) :: t

/-- `content.split('\n')[0]`: the text up to the first newline. -/
def firstLine (content : Str) : Str := content.takeWhile (· ≠ '\n')

/-- `os.path.basename`: the part of the path after the last `/`. -/
def pyBasename (p : Str) : Str := (p.reverse.takeWhile (· ≠ '/')).reverse

/-- `os.path.splitext(b)[0]` applied to a base name: drop the suffix from the
last `.` on, unless every character before that dot is itself a dot
(CPython's leading-dot rule, so `.bashrc` keeps its name whole). -/
def pySplitextRoot (b : Str) : Str :=
  let ext := b.reverse.takeWhile (· ≠ '.')
  if ext.length = b.length then b
  else
    let stem := b.take (b.length - ext.length - 1)
    if stem.all (· = '.') then b else stem

/-- A decoded note file: path and decoded text, as the `(file, content)`
pairs the search functions build. -/
structure PyFile where
  path : Str
  content : Str
deriving DecidableEq, Repr

/-- The per-file predicate of `search_by_subject` (body of its `for` loop):
if the stripped first line starts with `SUBJECT=`, test the lowered query
against the lowered, stripped remainder; otherwise test it against the
lowered base name without extension.  `q` is the raw query; the function
lowers it as the source does before the loop. -/
def subjectMatch (q : Str) (f : PyFile) : Bool :=
  let query := pyLower q
  let filename := pyLower (pySplitextRoot (pyBasename f.path))
  let fl := pyStrip (firstLine f.content)
  if List.isPrefixOf "SUBJECT=".toList fl then
    pyIn query (pyLower (pyStrip (fl.drop 8)))
  else
    pyIn query filename

/-- `search_by_subject` over an already-scanned list of decoded files
(`get_markdown_files` supplies the list; scan order is kept). -/
def search_by_subject (q : Str) (files : List PyFile) : List PyFile :=
  files.filter (subjectMatch q)

/-! ## Tag extraction: the two `re` patterns of `search_by_tags` -/

/-- Does the trailing `\s*\n` of the frontmatter pattern match a prefix of
`t`?  `\s*` (greedy, with backtracking) followed by `\n` matches a prefix of
`t` exactly when the maximal whitespace prefix of `t` contains a newline. -/
def fmEndOk (t : Str) : Bool := (t.takeWhile isPyWs).contains '\n'

/-- The lazy group `(.*?)` of `re.match(r'^---\s*\n(.*?)\n---\s*\n', ..., re.DOTALL)`
starting at `s`: the shortest prefix of `s` (newlines allowed, `re.DOTALL`)
whose remainder starts with `\n---` followed by `\s*\n`. -/
def fmGroupFrom : Str → Option Str
  | [] => none
  | c :: rest =>
    if List.isPrefixOf "\n---".toList (c :: rest) && fmEndOk ((c :: rest).drop 4) then
      some []
    else
      (fmGroupFrom rest).map (c :: ·)

/-- Backtracking over the first `\s*` of the frontmatter pattern: try the
candidate lengths `k` (largest first, as a greedy `\s*` does), requiring the
character at `k` to be the `\n` of the pattern, then match the lazy group
from position `k+1`. -/
def fmTryKs (after : Str) : List Nat → Option Str
  | [] => none
  | k :: ks =>
    if after[k]? = some '\n' then
      match fmGroupFrom (after.drop (k + 1)) with
      | some g => some g
      | none => fmTryKs after ks
    else fmTryKs after ks

/-- `re.match(r'^---\s*\n(.*?)\n---\s*\n', content, re.DOTALL)`: anchored at
the start; on success returns `group(1)`, the frontmatter body. -/
def frontmatterGroup (content : Str) : Option Str :=
  if List.isPrefixOf "---".toList content then
    let after := content.drop 3
    let wsLen := (after.takeWhile isPyWs).length
    fmTryKs after (List.range wsLen).reverse
  else none

/-- The lazy group of `tags:\s*\[(.*?)\]` after the `[`: the characters up to
the first `]`, failing if a newline (which `.` cannot match without
`re.DOTALL`) or the end of input comes first. -/
def tagsGroup : Str → Option Str
  | [] => none
  | c :: rest =>
    if c = ']' then some []
    else if c = '\n' then none
    else (tagsGroup rest).map (c :: ·)

/-- Try `tags:\s*\[(.*?)\]` anchored at `s`: literal `tags:`, then greedy
`\s*` (no backtracking alternatives, since `[` is not whitespace), then `[`,
then the lazy group. -/
def tagsMatchAt (s : Str) : Option Str :=
  if List.isPrefixOf "tags:".toList s then
    let after := s.drop 5
    match after.dropWhile isPyWs with
    | '[' :: inner => tagsGroup inner
    | _ => none
  else none

/-- `re.search(r'tags:\s*\[(.*?)\]', fm)`: leftmost match, returning `group(1)`. -/
def searchTagsLine : Str → Option Str
  | [] => none
  | c :: rest =>
    match tagsMatchAt (c :: rest) with
    | some g => some g
    | none => searchTagsLine rest

/-- Fuel-driven scanner for `re.findall(r'#(\w+)', content)`: each `#`
followed by a maximal nonempty run of word characters contributes that run,
and scanning resumes after it (non-overlapping, left to right).  One unit of
fuel is spent per position, so `length s` fuel always suffices. -/
def findInlineTagsF : Nat → Str → List Str
  | 0, _ => []
  | _ + 1, [] => []
  | fuel + 1, c :: rest =>
    if c = '#' then
      let w := rest.takeWhile isWordChar
      if w.isEmpty then findInlineTagsF fuel rest
      else w :: findInlineTagsF fuel (rest.drop w.length)
    else findInlineTagsF fuel rest

/-- `re.findall(r'#(\w+)', content)`: all non-overlapping matches, left to
right. -/
def findInlineTags (s : Str) : List Str := findInlineTagsF s.length s

/-- The raw file tags collected by `search_by_tags` for one file, in source
order: the frontmatter `tags: [...]` pieces (split on commas, stripped of
whitespace then of quotes), followed by the inline `#word` tokens. -/
def extractFileTags (content : Str) : List Str :=
  let yaml :=
    match frontmatterGroup content with
    | some fm =>
      match searchTagsLine fm with
      | some inner => (pySplit ',' inner).map (fun t => pyStripQuotes (pyStrip t))
      | none => []
    | none => []
  yaml ++ findInlineTags content

/-- The per-file predicate of `search_by_tags` (body of its `for` loop), for
an already-lowered query list `qtags`: some query tag and some lowered file
tag must be related by substring containment in either direction. -/
def tagsMatch (qtags : List Str) (content : Str) : Bool :=
  let file_tags := (extractFileTags content).map pyLower
  qtags.any (fun search_tag =>
    file_tags.any (fun file_tag =>
      pyIn search_tag file_tag || pyIn file_tag search_tag))

/-- `search_by_tags` over an already-scanned list of decoded files: the
query tags are lowered once, then every file whose tags relate to some
query tag by bidirectional containment is kept, in scan order. -/
def search_by_tags (tags : List Str) (files : List PyFile) : List PyFile :=
  let q := tags.map pyLower
  files.filter (fun f => tagsMatch q f.content)

/-! ## Date search: `re.search(r'ID=(\d{8}-\d{4})', content)` -/

/-- Try `ID=(\d{8}-\d{4})` anchored at `s`; on success return the captured
12-character code (`\d` modelled as a decimal digit). -/
def idMatchAt : Str → Option Str
  | 'I' :: 'D' :: '=' :: rest =>
    let d8 := rest.take 8
    if d8.length = 8 && d8.all Char.isDigit then
      match rest.drop 8 with
      | '-' :: r2 =>
        let d4 := r2.take 4
        if d4.length = 4 && d4.all Char.isDigit then some (d8 ++ '-' :: d4) else none
      | _ => none
    else none
  | _ => none

/-- `re.search(r'ID=(\d{8}-\d{4})', content)`: leftmost match, returning the
captured group — the first embedded ID code of the text. -/
def findFirstId : Str → Option Str
  | [] => none
  | c :: rest =>
    match idMatchAt (c :: rest) with
    | some code => some code
    | none => findFirstId rest

/-- `search_by_date` over an already-scanned list of decoded files: keep a
file when its text has an embedded ID code and that code starts with the
query string (`file_id.startswith(date_str)`). -/
def search_by_date (date_str : Str) (files : List PyFile) : List PyFile :=
  files.filter (fun f =>
    match findFirstId f.content with
    | some file_id => List.isPrefixOf date_str file_id
    | none => false)

/-! ## Reading files: decode errors propagate

`search_by_subject` opens each file with `open(file, 'r', encoding='utf-8')`
and calls `f.read()` with no `try`/`except`; a `UnicodeDecodeError` therefore
propagates out of the whole search.  A scanned file is modelled with its
decoded content when decoding succeeds, `none` when it raises. -/

structure RawFile where
  path : Str
  content : Option Str
deriving DecidableEq, Repr

/-- The full run of `search_by_subject` over scanned files, with the decode
exception modelled in `Except`: the loop processes files in order and an
undecodable file raises, aborting the search with nothing returned. -/
def search_by_subject_run (q : Str) : List RawFile → Except Unit (List PyFile)
  | [] => .ok []
  | f :: rest =>
    match f.content with
    | none => .error ()
    | some c =>
      match search_by_subject_run q rest with
      | .error e => .error e
      | .ok rs =>
        .ok ((if subjectMatch q ⟨f.path, c⟩ then [PyFile.mk f.path c] else []) ++ rs)

/-! ## The results-view loop of `draw_results` -/

/-- The keys the results loop dispatches on that move state (Escape exits
the loop and `e` re-launches the editor leaving the navigation state as it
was; neither changes the fields modelled here). -/
inductive Key where
  | up | down | ppage | npage | enter
deriving DecidableEq, Repr

/-- The mutable state of the `draw_results` loop: the result list (never
reassigned), `current_selection`, `right_panel_scroll` and `full_pane_mode`,
with Python's unbounded ints as `Int`. -/
structure RState where
  results : List PyFile
  current_selection : Int
  right_panel_scroll : Int
  full_pane_mode : Bool
deriving DecidableEq, Repr

/-- State on entry to `draw_results`: selection 0, scroll 0, split view. -/
def draw_results_init (results : List PyFile) : RState :=
  ⟨results, 0, 0, false⟩

/-- One key dispatch of the `draw_results` loop, for screen height
`height` (`visible_lines = height - 4`).  Transcribed branch by branch from
the `if full_pane_mode: ... else: ...` dispatch of the source; Up and Down
fall through without effect in the full-pane branch, as no `elif` handles
them there. -/
def draw_results_step (height : Int) (s : RState) (k : Key) : RState :=
  match s.full_pane_mode, k with
  | true, .ppage => { s with right_panel_scroll := max 0 (s.right_panel_scroll - (height - 4)) }
  | true, .npage => { s with right_panel_scroll := s.right_panel_scroll + (height - 4) }
  | true, .enter => { s with full_pane_mode := false, right_panel_scroll := 0 }
  | true, .up => s
  | true, .down => s
  | false, .up =>
    if s.current_selection > 0 then
      { s with current_selection := s.current_selection - 1, right_panel_scroll := 0 }
    else s
  | false, .down =>
    if s.current_selection < min ((s.results.length : Int) - 1) (height - 4) then
      { s with current_selection := s.current_selection + 1, right_panel_scroll := 0 }
    else s
  | false, .ppage => { s with right_panel_scroll := max 0 (s.right_panel_scroll - (height - 4)) }
  | false, .npage => { s with right_panel_scroll := s.right_panel_scroll + (height - 4) }
  | false, .enter => { s with full_pane_mode := true, right_panel_scroll := 0 }

/-- Run the results loop from its entry state through a key sequence. -/
def run_results (height : Int) (results : List PyFile) (evs : List Key) : RState :=
  evs.foldl (draw_results_step height) (draw_results_init results)

/-- `len(content.split('\n'))`: the line count of a note body as the
renderer computes it. -/
def lineCount (content : Str) : Int := ((pySplit '\n' content).length : Int)

/-! ## The menu/input loop of `run` -/

/-- The three search entries of the menu. -/
inductive SearchKind where
  | subject | tagsKind | date
deriving DecidableEq, Repr

/-- The modes relevant to submitting a query: back to the menu loop, or
into `draw_results`. -/
inductive Mode where
  | menu | resultsSplit
deriving DecidableEq, Repr

/-- The tag branch of `draw_search_input`:
`[tag.strip() for tag in input_str.split(',') if tag.strip()]`. -/
def draw_search_input_tags (input_str : Str) : List Str :=
  ((pySplit ',' input_str).map pyStrip).filter (fun t => !t.isEmpty)

/-- What `run` does with a submitted input line after choosing a search
item: each branch guards the search call with `if query:` (`if tags:`), so a
falsy query skips the search and the loop redraws the menu.  The `Bool`
records whether a search (and hence a vault scan) is invoked. -/
def run_submit (k : SearchKind) (input_str : Str) : Mode × Bool :=
  match k with
  | .subject => if input_str.isEmpty then (.menu, false) else (.resultsSplit, true)
  | .tagsKind =>
    if (draw_search_input_tags input_str).isEmpty then (.menu, false) else (.resultsSplit, true)
  | .date => if input_str.isEmpty then (.menu, false) else (.resultsSplit, true)

/-! ## A comparison definition and concrete inputs -/

/-- The subject-match predicate as the specification words it, for
comparison with `subjectMatch`: the literal `SUBJECT=` prefix is tested on
the raw first line of the note (the source strips the line first). -/
def subjectMatchSpec (q : Str) (f : PyFile) : Bool :=
  let query := pyLower q
  let fl := firstLine f.content
  if List.isPrefixOf "SUBJECT=".toList fl then
    pyIn query (pyLower (pyStrip (fl.drop 8)))
  else
    pyIn query (pyLower (pySplitextRoot (pyBasename f.path)))

def mlQuery : Str := ['m', 'l']

def htmlNote : PyFile := ⟨"/vault/web.md".toList, "#html".toList⟩

def sqlNote : PyFile := ⟨"/vault/db.md".toList, "#sql".toList⟩

def abcQuery : Str := ['a', 'b', 'c']

def wsSubjectNote : PyFile := ⟨"/vault/zzz.md".toList, " SUBJECT=abc\nbody".toList⟩

def idNote : PyFile := ⟨"/vault/log.md".toList, "Some note\nID=20240131-1530\nrest".toList⟩

def reportQuery : Str := "report".toList

def goodText : Str := "SUBJECT=Quarterly Report\nbody".toList

def badFile : RawFile := ⟨"/vault/bad.md".toList, none⟩

def goodFile : RawFile := ⟨"/vault/good.md".toList, some goodText⟩

def goodPy : PyFile := ⟨"/vault/good.md".toList, goodText⟩

def dupCaseText1 : Str := "#Html #html".toList

def dupCaseText2 : Str := "#HTML".toList

def htmlQuery : Str := "html".toList

def tagNoiseInput : Str := " , ,\t, ".toList

def oneLineNote : PyFile := ⟨"/vault/one.md".toList, "hello".toList⟩

def navKeysA : List Key := [Key.down, Key.npage, Key.up, Key.ppage]

def manyNotes : List PyFile := List.replicate 25 oneLineNote

def manyDowns : List Key := List.replicate 25 Key.down

def splitStateA : RState := ⟨[oneLineNote, htmlNote], 1, 7, false⟩

def finQuery : Str := "fin".toList

def fmNote : PyFile :=
  ⟨"/vault/fm.md".toList, "---\ntags: [finance, q1]\n---\n#urgent body".toList⟩

def noIdNote : PyFile := ⟨"/vault/plain.md".toList, "no identifier here".toList⟩

/-! ## Helper lemmas -/

theorem pyIn_iff_infix (sub s : Str) : pyIn sub s = true ↔ sub <:+: s := by
  induction s with
  | nil => simp [pyIn, List.isEmpty_iff]
  | cons c t ih =>
    simp [pyIn, List.infix_cons_iff, ih, List.isPrefixOf_iff_prefix]

theorem any_congr_of_mem_iff {α : Type} (p : α → Bool) (l₁ l₂ : List α)
    (h : ∀ x, x ∈ l₁ ↔ x ∈ l₂) : l₁.any p = l₂.any p := by
  rw [Bool.eq_iff_iff, List.any_eq_true, List.any_eq_true]
  constructor
  · rintro ⟨x, hx, hp⟩; exact ⟨x, (h x).mp hx, hp⟩
  · rintro ⟨x, hx, hp⟩; exact ⟨x, (h x).mpr hx, hp⟩

theorem any_congr_of_fun {α : Type} (p q : α → Bool) (l : List α)
    (h : ∀ x ∈ l, p x = q x) : l.any p = l.any q := by
  induction l with
  | nil => rfl
  | cons a t ih =>
    simp only [List.any_cons, h a (List.mem_cons_self a t)]
    rw [ih (fun x hx => h x (List.mem_cons_of_mem a hx))]

theorem pySplit_ne_nil (sep : Char) (s : Str) : pySplit sep s ≠ [] := by
  induction s with
  | nil => simp [pySplit]
  | cons c rest ih =>
    rw [pySplit]
    cases hsp : pySplit sep rest with
    | nil => exact absurd hsp ih
    | cons h t => by_cases hc : c = sep <;> simp [hc]

theorem mem_of_mem_pySplit (sep : Char) :
    ∀ (s : Str), ∀ p ∈ pySplit sep s, ∀ c ∈ p, c ∈ s ∧ c ≠ sep := by
  intro s
  induction s with
  | nil =>
    intro p hp c hc
    simp [pySplit] at hp
    subst hp
    simp at hc
  | cons x rest ih =>
    intro p hp c hc
    rw [pySplit] at hp
    revert hp
    cases hsp : pySplit sep rest with
    | nil => intro _; exact absurd hsp (pySplit_ne_nil sep rest)
    | cons h t =>
      intro hp0
      have hp : p ∈ (if x = sep then [] :: h :: t else (x :: h) :: t) := hp0
      by_cases hx : x = sep
      · rw [if_pos hx] at hp
        rcases List.mem_cons.mp hp with rfl | hp2
        · simp at hc
        · have hmem : p ∈ pySplit sep rest := by rw [hsp]; exact hp2
          have hres := ih p hmem c hc
          exact ⟨List.mem_cons_of_mem x hres.1, hres.2⟩
      · rw [if_neg hx] at hp
        rcases List.mem_cons.mp hp with rfl | hp2
        · rcases List.mem_cons.mp hc with rfl | hc2
          · exact ⟨List.mem_cons_self _ rest, hx⟩
          · have hmem : h ∈ pySplit sep rest := by
              rw [hsp]; exact List.mem_cons_self h t
            have hres := ih h hmem c hc2
            exact ⟨List.mem_cons_of_mem x hres.1, hres.2⟩
        · have hmem : p ∈ pySplit sep rest := by
            rw [hsp]; exact List.mem_cons_of_mem h hp2
          have hres := ih p hmem c hc
          exact ⟨List.mem_cons_of_mem x hres.1, hres.2⟩

theorem pyStrip_eq_nil_of_all_ws (p : Str) (h : ∀ c ∈ p, isPyWs c = true) :
    pyStrip p = [] := by
  unfold pyStrip pyStripBy
  rw [List.dropWhile_eq_nil_iff.mpr h]
  rfl

theorem draw_results_step_results (height : Int) (s : RState) (k : Key) :
    (draw_results_step height s k).results = s.results := by
  obtain ⟨res, sel, scr, fp⟩ := s
  cases fp <;> cases k <;> simp [draw_results_step] <;> split <;> rfl

theorem draw_results_step_inv (height : Int) (hh : 4 ≤ height) (s : RState) (k : Key)
    (h0 : 0 ≤ s.current_selection)
    (h1 : s.current_selection ≤ max 0 ((s.results.length : Int) - 1))
    (h2 : 0 ≤ s.right_panel_scroll) :
    0 ≤ (draw_results_step height s k).current_selection ∧
      (draw_results_step height s k).current_selection ≤
        max 0 (((draw_results_step height s k).results.length : Int) - 1) ∧
      0 ≤ (draw_results_step height s k).right_panel_scroll := by
  obtain ⟨res, sel, scr, fp⟩ := s
  simp only at h0 h1 h2
  cases fp <;> cases k <;> simp only [draw_results_step] <;>
    first
      | (refine ⟨h0, h1, ?_⟩; omega)
      | exact ⟨h0, h1, h2⟩
      | (split <;> simp only <;> omega)

theorem draw_results_step_sel_le (height : Int) (s : RState) (k : Key)
    (h1 : s.current_selection ≤ height - 4) :
    (draw_results_step height s k).current_selection ≤ height - 4 := by
  obtain ⟨res, sel, scr, fp⟩ := s
  simp only at h1
  cases fp <;> cases k <;> simp only [draw_results_step] <;>
    first
      | exact h1
      | (split <;> simp only <;> omega)

theorem foldl_results (height : Int) (evs : List Key) :
    ∀ s : RState, (evs.foldl (draw_results_step height) s).results = s.results := by
  induction evs with
  | nil => intro s; rfl
  | cons e t ih => intro s; rw [List.foldl_cons, ih, draw_results_step_results]

theorem tagsMatch_iff (qtags : List Str) (content : Str) :
    tagsMatch qtags content = true ↔
      ∃ st ∈ qtags, ∃ ft ∈ extractFileTags content,
        st <:+: pyLower ft ∨ pyLower ft <:+: st := by
  simp only [tagsMatch]
  rw [List.any_eq_true]
  constructor
  · rintro ⟨st, hst, h2⟩
    rw [List.any_eq_true] at h2
    obtain ⟨ft', hft', hrel⟩ := h2
    obtain ⟨ft, hft, rfl⟩ := List.mem_map.mp hft'
    rw [Bool.or_eq_true, pyIn_iff_infix, pyIn_iff_infix] at hrel
    exact ⟨st, hst, ft, hft, hrel⟩
  · rintro ⟨st, hst, ft, hft, hrel⟩
    refine ⟨st, hst, ?_⟩
    rw [List.any_eq_true]
    refine ⟨pyLower ft, List.mem_map_of_mem pyLower hft, ?_⟩
    rw [Bool.or_eq_true, pyIn_iff_infix, pyIn_iff_infix]
    exact hrel

/-! ## Claim theorems -/

/-- Claim C1: tag search uses bidirectional substring containment.  A note
is in the result of `search_by_tags` exactly when some case-folded query
term and some case-folded file tag (frontmatter or inline) contain one
another as a substring; in particular term `ml` matches a note whose only
tag is `html`, and does not match a note whose only tag is `sql`. -/
theorem tag_search_bidirectional_substring :
    (∀ (tags : List Str) (files : List PyFile) (f : PyFile),
        f ∈ search_by_tags tags files ↔
          f ∈ files ∧
            ∃ st ∈ tags, ∃ ft ∈ extractFileTags f.content,
              pyLower st <:+: pyLower ft ∨ pyLower ft <:+: pyLower st) ∧
    search_by_tags [mlQuery] [htmlNote] = [htmlNote] ∧
    search_by_tags [mlQuery] [sqlNote] = [] := by
  refine ⟨?_, by decide, by decide⟩
  intro tags files f
  simp only [search_by_tags, List.mem_filter]
  rw [tagsMatch_iff]
  constructor
  · rintro ⟨hf, st', hst', ft, hft, hrel⟩
    obtain ⟨st, hst, rfl⟩ := List.mem_map.mp hst'
    exact ⟨hf, st, hst, ft, hft, hrel⟩
  · rintro ⟨hf, st, hst, ft, hft, hrel⟩
    exact ⟨hf, pyLower st, List.mem_map_of_mem pyLower hst, ft, hft, hrel⟩

theorem tag_search_bidirectional_substring_witness :
    fmNote ∈ search_by_tags [finQuery] [fmNote] :=
  (tag_search_bidirectional_substring.1 [finQuery] [fmNote] fmNote).mpr
    ⟨List.mem_singleton.mpr rfl, by decide⟩

/-- Claim C3 (amended): the `SUBJECT=` prefix is tested on the first line
after stripping surrounding whitespace (the source strips the line before
the test); with that reading, a note is in the subject-search result iff
the case-folded query is a substring of the case-folded trimmed remainder
when the prefix is present, and a substring of the case-folded base name
without extension otherwise. -/
theorem subject_search_characterization :
    ∀ (query : Str) (files : List PyFile) (f : PyFile),
      f ∈ search_by_subject query files ↔
        f ∈ files ∧
          ((("SUBJECT=".toList <+: pyStrip (firstLine f.content)) ∧
              pyLower query <:+:
                pyLower (pyStrip ((pyStrip (firstLine f.content)).drop 8))) ∨
            (¬("SUBJECT=".toList <+: pyStrip (firstLine f.content)) ∧
              pyLower query <:+: pyLower (pySplitextRoot (pyBasename f.path)))) := by
  intro query files f
  rw [search_by_subject, List.mem_filter]
  have hiff : subjectMatch query f = true ↔
      ((("SUBJECT=".toList <+: pyStrip (firstLine f.content)) ∧
          pyLower query <:+:
            pyLower (pyStrip ((pyStrip (firstLine f.content)).drop 8))) ∨
        (¬("SUBJECT=".toList <+: pyStrip (firstLine f.content)) ∧
          pyLower query <:+: pyLower (pySplitextRoot (pyBasename f.path)))) := by
    simp only [subjectMatch]
    by_cases hpre :
        List.isPrefixOf "SUBJECT=".toList (pyStrip (firstLine f.content)) = true
    · have hp := List.isPrefixOf_iff_prefix.mp hpre
      rw [if_pos hpre, pyIn_iff_infix]
      constructor
      · intro h; exact Or.inl ⟨hp, h⟩
      · rintro (⟨_, h⟩ | ⟨hnp, _⟩)
        · exact h
        · exact absurd hp hnp
    · have hp : ¬("SUBJECT=".toList <+: pyStrip (firstLine f.content)) :=
        fun h => hpre (List.isPrefixOf_iff_prefix.mpr h)
      rw [if_neg hpre, pyIn_iff_infix]
      constructor
      · intro h; exact Or.inr ⟨hp, h⟩
      · rintro (⟨hp2, _⟩ | ⟨_, h⟩)
        · exact absurd hp2 hp
        · exact h
  rw [hiff]

theorem subject_search_characterization_witness :
    goodPy ∈ search_by_subject reportQuery [goodPy] :=
  (subject_search_characterization reportQuery [goodPy] goodPy).mpr
    ⟨List.mem_singleton.mpr rfl, by decide⟩

/-- Claim C3 counterexample: on a note whose raw first line is
` SUBJECT=abc` (leading space) the claim, which tests the prefix on the
raw first line, predicts a filename-only match and excludes the note for
query `abc`, but the code strips the line first and includes it. -/
theorem subject_search_raw_first_line_cex :
    search_by_subject abcQuery [wsSubjectNote] = [wsSubjectNote] ∧
    subjectMatchSpec abcQuery wsSubjectNote = false := by
  constructor
  · decide
  · decide

/-- Claim C4: date search implements the ID-prefix policy.  A note is in
the result of `search_by_date` iff its text has a first embedded
`ID=`-code (8 digits, hyphen, 4 digits) and the query is a prefix of that
code; notes with no such pattern are never in the result, and a note with
`ID=20240131-1530` matches `2024`, `202401` and `20240131-1530` but not
`2023`. -/
theorem date_search_id_prefix_policy :
    (∀ (date_str : Str) (files : List PyFile) (f : PyFile),
        f ∈ search_by_date date_str files ↔
          f ∈ files ∧ ∃ code, findFirstId f.content = some code ∧ date_str <+: code) ∧
    (∀ (date_str : Str) (files : List PyFile) (f : PyFile),
        findFirstId f.content = none → f ∉ search_by_date date_str files) ∧
    search_by_date "2024".toList [idNote] = [idNote] ∧
    search_by_date "202401".toList [idNote] = [idNote] ∧
    search_by_date "20240131-1530".toList [idNote] = [idNote] ∧
    search_by_date "2023".toList [idNote] = [] := by
  refine ⟨?_, ?_, by decide, by decide, by decide, by decide⟩
  · intro date_str files f
    rw [search_by_date, List.mem_filter]
    cases hid : findFirstId f.content with
    | none => simp [hid]
    | some code => simp [hid, List.isPrefixOf_iff_prefix]
  · intro date_str files f h hmem
    rw [search_by_date, List.mem_filter, h] at hmem
    simp at hmem

theorem date_search_id_prefix_policy_witness :
    noIdNote ∉ search_by_date ['2'] [noIdNote] :=
  date_search_id_prefix_policy.2.1 ['2'] [noIdNote] noIdNote (by decide)

/-- Claim C2 counterexample: from the entry state over a single one-line
note, with screen height 24 (viewport `24 - 4 = 20` lines), one Page-Down
leaves the preview scroll offset at 20, beyond the claimed bound
`max 0 (lineCount - viewportHeight) = 0`: the Page-Down handler adds a
viewport height with no upper clamp. -/
theorem results_scroll_exceeds_content_cex :
    (run_results 24 [oneLineNote] [Key.npage]).right_panel_scroll = 20 ∧
    lineCount oneLineNote.content = 1 ∧
    ¬((run_results 24 [oneLineNote] [Key.npage]).right_panel_scroll ≤
        max 0 (lineCount oneLineNote.content - (24 - 4))) := by
  refine ⟨by decide, by decide, by decide⟩

/-- Claim C2 (amended): over every key sequence from the entry state of the
results view, the selection index stays in `[0, max 0 (resultCount - 1)]`
and the preview scroll offset stays nonnegative; the scroll offset is not
clamped above (see the counterexample), so the end-of-content bound of the
original claim is dropped. -/
theorem results_nav_bounds :
    ∀ (height : Int) (results : List PyFile) (evs : List Key), 4 ≤ height →
      0 ≤ (run_results height results evs).current_selection ∧
      (run_results height results evs).current_selection ≤
        max 0 ((results.length : Int) - 1) ∧
      0 ≤ (run_results height results evs).right_panel_scroll := by
  intro height results evs hh
  have hgen : ∀ s : RState,
      (0 ≤ s.current_selection ∧
        s.current_selection ≤ max 0 ((s.results.length : Int) - 1) ∧
        0 ≤ s.right_panel_scroll) →
      (0 ≤ (evs.foldl (draw_results_step height) s).current_selection ∧
        (evs.foldl (draw_results_step height) s).current_selection ≤
          max 0 ((((evs.foldl (draw_results_step height) s).results.length : Int)) - 1) ∧
        0 ≤ (evs.foldl (draw_results_step height) s).right_panel_scroll) := by
    induction evs with
    | nil => intro s h; exact h
    | cons e t ih =>
      intro s h
      rw [List.foldl_cons]
      exact ih _ (draw_results_step_inv height hh s e h.1 h.2.1 h.2.2)
  have h0 := hgen (draw_results_init results)
    ⟨le_refl 0, le_max_left 0 _, le_refl 0⟩
  rw [foldl_results height evs (draw_results_init results)] at h0
  exact h0

theorem results_nav_bounds_witness :
    0 ≤ (run_results 24 [oneLineNote] navKeysA).current_selection ∧
    (run_results 24 [oneLineNote] navKeysA).current_selection ≤
      max 0 ((([oneLineNote] : List PyFile).length : Int) - 1) ∧
    0 ≤ (run_results 24 [oneLineNote] navKeysA).right_panel_scroll :=
  results_nav_bounds 24 [oneLineNote] navKeysA (by decide)

/-- Claim C5: the claim says a decode failure is skipped and the search
continues over the remaining files, but the code wraps `open`/`read` in no
handler: on a vault with an undecodable file followed by a readable
matching note, the run aborts with the decode error and returns nothing,
while the matching readable note would have matched on its own. -/
theorem decode_error_aborts_search :
    search_by_subject_run reportQuery [badFile, goodFile] = Except.error () ∧
    search_by_subject reportQuery [goodPy] = [goodPy] := by
  refine ⟨rfl, by decide⟩

/-- Claim C6: extracted tags behave as a case-folded set.  If two note
texts declare the same tags up to duplicates, order and letter case (equal
case-folded tag sets), the tag-search match outcome is identical for every
query list. -/
theorem tag_extraction_set_semantics :
    ∀ (tags : List Str) (t1 t2 : Str),
      ((extractFileTags t1).map pyLower).toFinset =
        ((extractFileTags t2).map pyLower).toFinset →
      tagsMatch (tags.map pyLower) t1 = tagsMatch (tags.map pyLower) t2 := by
  intro tags t1 t2 h
  simp only [tagsMatch]
  apply any_congr_of_fun
  intro st _
  apply any_congr_of_mem_iff
  intro x
  rw [← List.mem_toFinset, ← List.mem_toFinset, h]

theorem tag_extraction_set_semantics_witness :
    ((extractFileTags dupCaseText1).map pyLower).toFinset =
      ((extractFileTags dupCaseText2).map pyLower).toFinset ∧
    tagsMatch ([htmlQuery].map pyLower) dupCaseText1 =
      tagsMatch ([htmlQuery].map pyLower) dupCaseText2 :=
  ⟨by decide, tag_extraction_set_semantics [htmlQuery] dupCaseText1 dupCaseText2 (by decide)⟩

/-- Claim C7: submitting an empty input line returns to the menu without
invoking a search, for every query kind; for the Tags kind, input of only
commas and whitespace likewise yields no search (the parsed tag list is
empty and `if tags:` fails). -/
theorem empty_input_no_search :
    (∀ k : SearchKind, run_submit k [] = (Mode.menu, false)) ∧
    (∀ s : Str, (∀ c ∈ s, c = ',' ∨ isPyWs c = true) →
      run_submit SearchKind.tagsKind s = (Mode.menu, false)) := by
  constructor
  · intro k; cases k <;> rfl
  · intro s hs
    have htags : draw_search_input_tags s = [] := by
      rw [draw_search_input_tags, List.filter_eq_nil_iff]
      intro t ht
      obtain ⟨p, hp, rfl⟩ := List.mem_map.mp ht
      have hws : ∀ c ∈ p, isPyWs c = true := by
        intro c hc
        have h2 := mem_of_mem_pySplit ',' s p hp c hc
        rcases hs c h2.1 with hcomma | hws
        · exact absurd hcomma h2.2
        · exact hws
      simp [pyStrip_eq_nil_of_all_ws p hws]
    simp [run_submit, htags]

theorem empty_input_no_search_witness :
    run_submit SearchKind.tagsKind tagNoiseInput = (Mode.menu, false) ∧
    run_submit SearchKind.subject [] = (Mode.menu, false) :=
  ⟨empty_input_no_search.2 tagNoiseInput (by decide),
    empty_input_no_search.1 SearchKind.subject⟩

/-- Claim C8: Enter in the split view switches to the full-pane view with
the selection unchanged; Enter in the full-pane view switches back to the
split view and resets the scroll offset to 0; the result list is unchanged
by both transitions. -/
theorem enter_toggles_view :
    ∀ (height : Int) (res : List PyFile) (sel scr : Int),
      draw_results_step height ⟨res, sel, scr, false⟩ Key.enter = ⟨res, sel, 0, true⟩ ∧
      draw_results_step height ⟨res, sel, scr, true⟩ Key.enter = ⟨res, sel, 0, false⟩ := by
  intro height res sel scr
  exact ⟨rfl, rfl⟩

theorem enter_toggles_view_witness :
    draw_results_step 24 ⟨[oneLineNote], 0, 5, false⟩ Key.enter =
      ⟨[oneLineNote], 0, 0, true⟩ ∧
    draw_results_step 24 ⟨[oneLineNote], 0, 5, true⟩ Key.enter =
      ⟨[oneLineNote], 0, 0, false⟩ :=
  enter_toggles_view 24 [oneLineNote] 0 5

/-- Claim C9: in the results view the selection index never exceeds
`height - 4`: the Down handler only advances below
`min (resultCount - 1) (height - 4)`, so over any key sequence from the
entry state the selection stays within the first screenful. -/
theorem split_selection_capped_at_viewport :
    ∀ (height : Int) (results : List PyFile) (evs : List Key), 4 ≤ height →
      (run_results height results evs).current_selection ≤ height - 4 := by
  intro height results evs hh
  rw [run_results]
  have hgen : ∀ s : RState, s.current_selection ≤ height - 4 →
      (evs.foldl (draw_results_step height) s).current_selection ≤ height - 4 := by
    induction evs with
    | nil => intro s h; exact h
    | cons e t ih =>
      intro s h
      rw [List.foldl_cons]
      exact ih _ (draw_results_step_sel_le height s e h)
  apply hgen
  simp only [draw_results_init]
  omega

theorem split_selection_capped_witness :
    (run_results 24 manyNotes manyDowns).current_selection ≤ 24 - 4 :=
  split_selection_capped_at_viewport 24 manyNotes manyDowns (by decide)

/-- Claim C10: in the split view, an Up or Down event that changes the
selection resets the preview scroll offset to 0; the view mode and the
result list are unchanged by these events. -/
theorem updown_resets_preview_scroll :
    ∀ (height : Int) (s : RState) (k : Key),
      s.full_pane_mode = false → (k = Key.up ∨ k = Key.down) →
      (((draw_results_step height s k).current_selection ≠ s.current_selection →
          (draw_results_step height s k).right_panel_scroll = 0) ∧
        (draw_results_step height s k).full_pane_mode = false ∧
        (draw_results_step height s k).results = s.results) := by
  intro height s k hfp hk
  obtain ⟨res, sel, scr, fp⟩ := s
  cases fp with
  | true => simp at hfp
  | false =>
    rcases hk with rfl | rfl
    · simp only [draw_results_step]
      by_cases hsel : sel > 0
      · rw [if_pos hsel]
        exact ⟨fun _ => rfl, rfl, rfl⟩
      · rw [if_neg hsel]
        exact ⟨fun h => absurd rfl h, rfl, rfl⟩
    · simp only [draw_results_step]
      by_cases hsel : sel < min ((res.length : Int) - 1) (height - 4)
      · rw [if_pos hsel]
        exact ⟨fun _ => rfl, rfl, rfl⟩
      · rw [if_neg hsel]
        exact ⟨fun h => absurd rfl h, rfl, rfl⟩

theorem updown_resets_preview_scroll_witness :
    (((draw_results_step 24 splitStateA Key.up).current_selection ≠
        splitStateA.current_selection →
        (draw_results_step 24 splitStateA Key.up).right_panel_scroll = 0) ∧
      (draw_results_step 24 splitStateA Key.up).full_pane_mode = false ∧
      (draw_results_step 24 splitStateA Key.up).results = splitStateA.results) :=
  updown_resets_preview_scroll 24 splitStateA Key.up rfl (Or.inl rfl)

end Dynix
